import Mathlib

/-!
Verification of the draft turn engine of the sports-fantasy repository.

The engine lives in the SQL migrations (plpgsql functions) and the
TypeScript mock-draft driver:

* `supabase/migrations/002_draft_system.sql` — the standalone draft:
  `draft_state` singleton row, `get_next_team`, `start_draft`, `make_pick`.
* a later migration (shipped in the repo) replaces `make_pick` with the
  same logic but a fixed player-name match; that final version is what is
  embedded here.
* `supabase/migrations/006_mock_draft_system.sql` — final `start_draft`,
  which reads the required team count from the league settings.
* `supabase/migrations/008_mock_draft_in_league.sql` — per-instance mock
  drafts: `make_mock_draft_pick`, `make_mock_draft_bot_pick`,
  `get_mock_draft_state`.
* the client mock-draft library — `isNextPickBot`, `processAllBotPicks`.

Modelling conventions:

* SQL `TEXT[]` arrays become `List String`; SQL arrays are 1-based and an
  out-of-range or zero subscript yields NULL, which `sqlArrayGet` encodes
  as `none`.
* A plpgsql `RAISE EXCEPTION` aborts the enclosing transaction, so a
  function that raises leaves the database untouched.  Fallible functions
  therefore return `Except`: the `error` branch carries no new state, so
  "state unchanged on failure" is part of the shape of the embedding.
* `RAISE EXCEPTION` message strings are carried by the error constructors;
  data interpolated into a message (`%`) becomes a constructor argument,
  and `message` functions below rebuild the exact message text.
* SQL `x != y` is unknown (not true) when an operand is NULL, so a guard
  `IF x != y THEN RAISE` does not fire on NULL; `sqlNeq` encodes this.
* `ORDER BY random()` is modelled by quantifying over the list order: the
  surrounding definitions take the already-shuffled list as an argument.
* UUIDs become `Nat` identifiers; timestamps are dropped (no claim
  mentions them); the auth guards (`auth.uid()`, commissioner checks) are
  the external collaborators of the spec and are modelled as passing.
-/

/-- Status of a mock draft (`mock_drafts.status`,
CHECK (status IN ('in_progress','completed','cancelled'))). -/
inductive DraftStatus where
  | inProgress
  | completed
  | cancelled
deriving DecidableEq, Repr

/-- SQL 1-based array subscript: `arr[i]` is NULL (`none`) when `i` is zero
or beyond the end of the array. -/
def sqlArrayGet (xs : List String) (i : Nat) : Option String :=
  if i = 0 then none else xs.get? (i - 1)

/-- SQL inequality on nullable text: `x != y` is TRUE only when both
operands are non-NULL and differ; a NULL operand makes it unknown, and an
`IF` treats unknown as false. -/
def sqlNeq (x y : Option String) : Bool :=
  match x, y with
  | some a, some b => a != b
  | _, _ => false

/-- The singleton `draft_state` row of the standalone draft system
(002_draft_system.sql).  `array_length` of an empty array is NULL in SQL;
the `= 0` checks below cover both NULL and 0. -/
structure DraftState where
  started : Bool
  current_round : Nat
  current_pick : Nat
  draft_order : List String
  max_teams : Nat
  total_rounds : Nat
deriving DecidableEq, Repr

/-- `get_next_team` (002_draft_system.sql): snake-draft turn resolver.
On even rounds it materialises the reversed draft order and indexes into
that; on odd rounds it indexes the order directly. -/
def get_next_team (s : DraftState) : Option String :=
  if s.started = false then none
  else
    let team_count := s.draft_order.length
    if team_count = 0 then none
    else
      let position_in_round := s.current_pick % team_count
      let draft_sequence :=
        if s.current_round % 2 = 0 then s.draft_order.reverse else s.draft_order
      sqlArrayGet draft_sequence (position_in_round + 1)

/-- The inline turn calculation repeated in `make_mock_draft_pick`,
`make_mock_draft_bot_pick` and `get_mock_draft_state`
(008_mock_draft_in_league.sql): index arithmetic instead of array
reversal.  With an empty order, SQL computes a NULL index and the lookup
is NULL; the Lean terms reduce to `none` in that case as well. -/
def mockNextTeam (order : List String) (current_round current_pick : Nat) : Option String :=
  let team_count := order.length
  let position_in_round := current_pick % team_count
  if current_round % 2 = 0 then
    sqlArrayGet order (team_count - position_in_round)
  else
    sqlArrayGet order (position_in_round + 1)

/-- A team row (`mock_draft_teams`, and `teams` of the standalone system,
which also carries an `is_bot` flag). -/
structure Team where
  id : Nat
  name : String
  is_bot : Bool
deriving DecidableEq, Repr

/-- A player row (`players`): `first_name`, `last_name`, and the global
`is_available` flag used only by the standalone draft (nullable column,
treated as available when NULL). -/
structure Player where
  id : Nat
  first_name : String
  last_name : String
  is_available : Option Bool
deriving DecidableEq, Repr

/-- A committed pick row (`mock_draft_picks` / `draft_picks`): team,
player, the round the pick was made in, and the global 1-based pick
number. -/
structure PickRecord where
  team_id : Nat
  player_id : Nat
  round : Nat
  pick_number : Nat
deriving DecidableEq, Repr

/-- The mutable columns of one `mock_drafts` row
(008_mock_draft_in_league.sql). -/
structure MockDraft where
  status : DraftStatus
  total_rounds : Nat
  current_round : Nat
  current_pick : Nat
  draft_order : List String
deriving DecidableEq, Repr

/-- Errors raised by `make_mock_draft_pick`; the argument of `wrongTurn`
is the `v_next_team` value interpolated into the message. -/
inductive MockPickErr where
  | notInProgress
  | wrongTurn (current_turn : String)
  | teamNotFound
  | alreadyPicked
  | playerNotFound
deriving DecidableEq, Repr

/-- The exact `RAISE EXCEPTION` message text of each `MockPickErr`,
rebuilt from the plpgsql format strings (the escape stands for the
apostrophe of the source text). -/
def MockPickErr.message : MockPickErr → String
  | .notInProgress => "Mock draft is not in progress"
  | .wrongTurn t => "Not this team\x27s turn! Current turn: " ++ t
  | .teamNotFound => "Team not found in mock draft"
  | .alreadyPicked => "Player already picked in this mock draft"
  | .playerNotFound => "Player not found"

/-- The JSON object returned by a successful `make_mock_draft_pick`. -/
structure MockPickOk where
  message : String
  pick_number : Nat
  round : Nat
  player_name : String
  is_complete : Bool
deriving DecidableEq, Repr

/-- `make_mock_draft_pick` (008_mock_draft_in_league.sql).  Checks status,
turn ownership, team existence, per-instance player availability and
player existence, then inserts the pick (round = the pre-increment
`current_round`, pick_number = `current_pick + 1`), advances the
counters, and marks the draft completed when the new round exceeds
`total_rounds`.  The tables the function touches are passed in
(`teams` = `mock_draft_teams` rows of this draft, `players` = `players`,
`picks` = `mock_draft_picks` rows of this draft, in insertion order); the
result carries the updated draft row and ledger. -/
def make_mock_draft_pick (teams : List Team) (players : List Player)
    (picks : List PickRecord) (d : MockDraft) (p_team_name : String) (p_player_id : Nat) :
    Except MockPickErr (MockPickOk × MockDraft × List PickRecord) :=
  if d.status ≠ DraftStatus.inProgress then Except.error MockPickErr.notInProgress
  else
    let v_team_count := d.draft_order.length
    let v_next_team := mockNextTeam d.draft_order d.current_round d.current_pick
    if sqlNeq v_next_team (some p_team_name) then
      Except.error (MockPickErr.wrongTurn (v_next_team.getD ""))
    else
      match teams.find? (fun t => t.name == p_team_name) with
      | none => Except.error MockPickErr.teamNotFound
      | some v_team =>
        if picks.any (fun pk => pk.player_id == p_player_id) then
          Except.error MockPickErr.alreadyPicked
        else
          match players.find? (fun pl => pl.id == p_player_id) with
          | none => Except.error MockPickErr.playerNotFound
          | some pl =>
            let v_player_name := pl.first_name ++ " " ++ pl.last_name
            let v_new_pick_number := d.current_pick + 1
            let v_new_round :=
              if v_new_pick_number % v_team_count = 0 then d.current_round + 1
              else d.current_round
            Except.ok
              ({ message := p_team_name ++ " picked " ++ v_player_name,
                 pick_number := v_new_pick_number,
                 round := v_new_round,
                 player_name := v_player_name,
                 is_complete := decide (v_new_round > d.total_rounds) },
               { d with
                 current_pick := v_new_pick_number,
                 current_round := v_new_round,
                 status :=
                   if v_new_round > d.total_rounds then DraftStatus.completed
                   else DraftStatus.inProgress },
               picks ++ [{ team_id := v_team.id, player_id := p_player_id,
                           round := d.current_round,
                           pick_number := v_new_pick_number }])

/-- Errors raised by the final `make_pick` of the standalone draft system.
None of the constructors carries data: in particular the wrong-turn
message is the fixed text and does not interpolate the expected team. -/
inductive PickErr where
  | notStarted
  | wrongTurn
  | teamNotFound
  | playerNotAvailable
deriving DecidableEq, Repr

/-- The exact `RAISE EXCEPTION` message text of each `PickErr`. -/
def PickErr.message : PickErr → String
  | .notStarted => "Draft has not started"
  | .wrongTurn => "Not your turn!"
  | .teamNotFound => "Team not found"
  | .playerNotAvailable => "Player not available!"

/-- The slice of the database mutated and read by the standalone draft:
the `draft_state` singleton, the `status` column of the `drafts` row the
draft points at, the league teams, the global players table, and the
`draft_picks` ledger (in insertion order). -/
structure Db where
  state : DraftState
  drafts_status : String
  teams : List Team
  players : List Player
  picks : List PickRecord
deriving DecidableEq, Repr

/-- SQL `TRIM`: strips leading and trailing spaces. -/
def sqlTrim (s : String) : String :=
  String.mk
    ((((s.data.dropWhile (fun c => c == ' ')).reverse).dropWhile
      (fun c => c == ' ')).reverse)

/-- The player-name match of the final `make_pick`: three OR-ed
comparisons of `first_name || ' ' || last_name` against the requested
name (for the non-NULL names produced by `init_draft_players` the
COALESCE variants collapse to the plain concatenation, and the third
variant trims the concatenation). -/
def player_name_matches (pl : Player) (p_player_name : String) : Bool :=
  (pl.first_name ++ " " ++ pl.last_name == p_player_name) ||
  (pl.first_name ++ " " ++ pl.last_name == p_player_name) ||
  (sqlTrim (pl.first_name ++ " " ++ pl.last_name) == p_player_name)

/-- `is_available = TRUE OR is_available IS NULL` of `make_pick`. -/
def is_available_ok (pl : Player) : Bool :=
  pl.is_available == some true || pl.is_available == none

/-- The JSON object returned by a successful `make_pick`. -/
structure PickOk where
  message : String
  pick_number : Nat
  round : Nat
deriving DecidableEq, Repr

/-- The final `make_pick` of the standalone draft system (the repaired
version that matches players on `first_name`/`last_name` only).  Checks
that the draft started, checks turn ownership via `get_next_team`, finds
the team, finds an available player by name, inserts the pick (round =
pre-increment `current_round`, pick_number = `current_pick + 1`), marks
the player unavailable, and advances `current_pick`/`current_round` on
both `draft_state` and the `drafts` row.  It never writes any `status`
column: `drafts_status` is carried over unchanged on success. -/
def make_pick (db : Db) (p_team_name p_player_name : String) :
    Except PickErr (PickOk × Db) :=
  let state := db.state
  if state.started = false then Except.error PickErr.notStarted
  else
    let next_team := get_next_team state
    if sqlNeq next_team (some p_team_name) then Except.error PickErr.wrongTurn
    else
      match db.teams.find? (fun t => t.name == p_team_name) with
      | none => Except.error PickErr.teamNotFound
      | some v_team =>
        match db.players.find?
            (fun pl => player_name_matches pl p_player_name && is_available_ok pl) with
        | none => Except.error PickErr.playerNotAvailable
        | some v_player =>
          let new_pick_number := state.current_pick + 1
          let team_count := state.draft_order.length
          let new_round :=
            if new_pick_number % team_count = 0 then state.current_round + 1
            else state.current_round
          Except.ok
            ({ message := p_team_name ++ " picked " ++ p_player_name,
               pick_number := new_pick_number,
               round := new_round },
             { db with
               state := { state with
                          current_pick := new_pick_number,
                          current_round := new_round },
               players := db.players.map (fun pl =>
                 if pl.id == v_player.id then { pl with is_available := some false } else pl),
               picks := db.picks ++ [{ team_id := v_team.id, player_id := v_player.id,
                                       round := state.current_round,
                                       pick_number := new_pick_number }] })

/-- Error raised by the final `start_draft` when the registered team count
differs from the league's required count; the two numbers are
interpolated into the message. -/
inductive StartErr where
  | preconditionFailed (required got : Nat)
deriving DecidableEq, Repr

/-- The final `start_draft` (006_mock_draft_system.sql): reads the
league's `max_teams` as the required count, counts the registered teams,
raises when the counts differ, and otherwise stores the shuffled order
and resets the counters.  The authentication and commissioner checks are
external collaborators and modelled as passing; the random shuffle is
modelled by taking the shuffled name list as an argument. -/
def start_draft (required_teams : Nat) (league_teams : List Team)
    (shuffled_teams : List String) (s : DraftState) :
    Except StartErr (List String × DraftState) :=
  let team_count := league_teams.length
  if team_count ≠ required_teams then
    Except.error (StartErr.preconditionFailed required_teams team_count)
  else
    Except.ok (shuffled_teams,
      { s with
        started := true,
        draft_order := shuffled_teams,
        current_round := 1,
        current_pick := 0,
        max_teams := required_teams })

/-- The outcome of `make_mock_draft_bot_pick`: the non-exceptional
negative results are JSON objects with `success = false` (`notInProgress`,
`notABotTurn` — which carries the `next_team` field of the JSON —, and
`noPlayers`); `picked` is the `success = true` object; `pickFailed` is an
exception propagated out of the inner `make_mock_draft_pick`. -/
inductive BotPickOut where
  | notInProgress
  | notABotTurn (next_team : Option String)
  | noPlayers
  | picked (result : MockPickOk)
  | pickFailed (e : MockPickErr)
deriving DecidableEq, Repr

/-- `make_mock_draft_bot_pick` (008_mock_draft_in_league.sql).  Returns a
`success = false` object when the draft is not in progress; resolves the
turn; looks the team up and returns `notABotTurn` (with the resolved
name) unless `COALESCE(is_bot, FALSE)` — a missing team also falls into
that branch; picks the first player not yet picked in this draft
(`ORDER BY random() LIMIT 1` is modelled by the order of `players`);
returns `noPlayers` when none remains; otherwise drives the chosen player
through `make_mock_draft_pick`.  An exception of the inner call aborts
the transaction, so `pickFailed` leaves the state unchanged. -/
def make_mock_draft_bot_pick (teams : List Team) (players : List Player)
    (picks : List PickRecord) (d : MockDraft) :
    BotPickOut × MockDraft × List PickRecord :=
  if d.status ≠ DraftStatus.inProgress then (BotPickOut.notInProgress, d, picks)
  else
    match mockNextTeam d.draft_order d.current_round d.current_pick with
    | none => (BotPickOut.notABotTurn none, d, picks)
    | some v_next_team =>
      match teams.find? (fun t => t.name == v_next_team) with
      | none => (BotPickOut.notABotTurn (some v_next_team), d, picks)
      | some v_team =>
        if v_team.is_bot = false then (BotPickOut.notABotTurn (some v_next_team), d, picks)
        else
          match players.find? (fun pl => !picks.any (fun pk => pk.player_id == pl.id)) with
          | none => (BotPickOut.noPlayers, d, picks)
          | some v_player =>
            match make_mock_draft_pick teams players picks d v_next_team v_player.id with
            | Except.ok (r, d', picks') => (BotPickOut.picked r, d', picks')
            | Except.error e => (BotPickOut.pickFailed e, d, picks)

/-- The `next_team` field computed by `get_mock_draft_state`: the inline
snake calculation, guarded by `v_team_count > 0` (NULL otherwise). -/
def state_next_team (d : MockDraft) : Option String :=
  if d.draft_order.length > 0 then
    mockNextTeam d.draft_order d.current_round d.current_pick
  else none

/-- `isNextPickBot` of the client mock-draft library: the next team per
the fetched state, looked up among the fetched teams; `false` when there
is no next team or the team is missing or human. -/
def isNextPickBot (teams : List Team) (d : MockDraft) : Bool :=
  match state_next_team d with
  | none => false
  | some nextTeam =>
    match teams.find? (fun t => t.name == nextTeam) with
    | some t => t.is_bot
    | none => false

/-- Number of players not yet picked in this draft instance — the size of
the set `make_mock_draft_bot_pick` chooses from. -/
def availableCount (players : List Player) (picks : List PickRecord) : Nat :=
  (players.filter (fun pl => !picks.any (fun pk => pk.player_id == pl.id))).length

/-- `processAllBotPicks` of the client mock-draft library, with an
explicit iteration budget (`fuel`).  Each iteration stops when the draft
is no longer in progress, when the next pick is not a bot's, or when the
bot pick fails; a successful bot pick replaces the state and the loop
continues unless the pick completed the draft.  `none` means the budget
was exhausted before the loop stopped; the termination theorem below
shows a budget of `availableCount players picks + 1` always suffices. -/
def processAllBotPicks (teams : List Team) (players : List Player) :
    Nat → List PickRecord → MockDraft → Option (MockDraft × List PickRecord)
  | 0, _, _ => none
  | fuel + 1, picks, d =>
    if d.status ≠ DraftStatus.inProgress then some (d, picks)
    else if isNextPickBot teams d = false then some (d, picks)
    else
      match make_mock_draft_bot_pick teams players picks d with
      | (BotPickOut.picked r, d', picks') =>
        if r.is_complete then some (d', picks')
        else processAllBotPicks teams players fuel picks' d'
      | (_, d', picks') => some (d', picks')

/-- Runs a sequence of `(team, player-name)` requests through `make_pick`,
stopping at the first exception — the shape of a client driving the
standalone draft pick by pick. -/
def applyPickSeq (moves : List (String × String)) (db : Db) : Except PickErr Db :=
  match moves with
  | [] => Except.ok db
  | (team, player) :: rest =>
    match make_pick db team player with
    | Except.ok (_, db') => applyPickSeq rest db'
    | Except.error e => Except.error e

/-- Mock-draft states reachable from a freshly created draft by successful
picks.  `create_league_mock_draft` initialises `status = 'in_progress'`,
`current_round = 1`, `current_pick = 0`, an empty ledger, and an order of
`num_bots + 1` teams with `num_bots ≥ 1` (the `valid_num_bots` CHECK), so
the base case carries `2 ≤ order.length`; drafts are created with at
least one round (`total_rounds` defaults to 5). -/
inductive MockReachable (teams : List Team) (players : List Player) :
    MockDraft → List PickRecord → Prop where
  | start (order : List String) (total_rounds : Nat)
      (hlen : 2 ≤ order.length) (hR : 1 ≤ total_rounds) :
      MockReachable teams players
        { status := DraftStatus.inProgress, total_rounds := total_rounds,
          current_round := 1, current_pick := 0, draft_order := order } []
  | step (d : MockDraft) (picks : List PickRecord) (name : String) (pid : Nat)
      (r : MockPickOk) (d' : MockDraft) (picks' : List PickRecord)
      (hreach : MockReachable teams players d picks)
      (hok : make_mock_draft_pick teams players picks d name pid =
        Except.ok (r, d', picks')) :
      MockReachable teams players d' picks'

/-- Standalone-draft databases reachable from a freshly started draft
(`start_draft` sets `started`, `current_round = 1`, `current_pick = 0`,
creates the `drafts` row with `status = 'in_progress'` and no picks) by
successful `make_pick` calls. -/
inductive DbReachable : Db → Prop where
  | start (db : Db) (hstart : db.state.started = true)
      (hround : db.state.current_round = 1) (hpick : db.state.current_pick = 0)
      (hpicks : db.picks = []) (hstatus : db.drafts_status = "in_progress") :
      DbReachable db
  | step (db : Db) (name pname : String) (r : PickOk) (db' : Db)
      (hreach : DbReachable db)
      (hok : make_pick db name pname = Except.ok (r, db')) :
      DbReachable db'

/-- The inductive invariant of one mock draft: counters agree, the ledger
carries exactly the pick numbers `1 .. current_pick` with the derived
round on each record, and the status flips to `completed` exactly at
`total_rounds * team_count` picks. -/
def MockInv (d : MockDraft) (picks : List PickRecord) : Prop :=
  2 ≤ d.draft_order.length ∧ 1 ≤ d.total_rounds ∧
  d.current_round = d.current_pick / d.draft_order.length + 1 ∧
  picks.map (fun pk => pk.pick_number) = List.range' 1 d.current_pick ∧
  (∀ pk ∈ picks, pk.round = (pk.pick_number - 1) / d.draft_order.length + 1) ∧
  (d.status = DraftStatus.completed ↔
    d.current_pick = d.total_rounds * d.draft_order.length) ∧
  (d.status = DraftStatus.inProgress →
    d.current_pick < d.total_rounds * d.draft_order.length) ∧
  (d.status = DraftStatus.inProgress ∨ d.status = DraftStatus.completed)

/-- The inductive invariant of the standalone draft: counters agree, the
ledger carries exactly `1 .. current_pick` with the derived rounds, and
the `drafts` row status stays `'in_progress'` — no pick ever completes
it. -/
def DbInv (db : Db) : Prop :=
  db.state.current_round = db.state.current_pick / db.state.draft_order.length + 1 ∧
  db.picks.map (fun pk => pk.pick_number) = List.range' 1 db.state.current_pick ∧
  (∀ pk ∈ db.picks, pk.round =
    (pk.pick_number - 1) / db.state.draft_order.length + 1) ∧
  db.drafts_status = "in_progress"

/-- Twenty players named `"P 1" .. "P 20"`, all available — the pool
`init_draft_players` creates for the standalone draft. -/
def c3players : List Player :=
  [{ id := 1, first_name := "P", last_name := "1", is_available := some true },
   { id := 2, first_name := "P", last_name := "2", is_available := some true },
   { id := 3, first_name := "P", last_name := "3", is_available := some true },
   { id := 4, first_name := "P", last_name := "4", is_available := some true },
   { id := 5, first_name := "P", last_name := "5", is_available := some true },
   { id := 6, first_name := "P", last_name := "6", is_available := some true },
   { id := 7, first_name := "P", last_name := "7", is_available := some true },
   { id := 8, first_name := "P", last_name := "8", is_available := some true },
   { id := 9, first_name := "P", last_name := "9", is_available := some true },
   { id := 10, first_name := "P", last_name := "10", is_available := some true },
   { id := 11, first_name := "P", last_name := "11", is_available := some true },
   { id := 12, first_name := "P", last_name := "12", is_available := some true },
   { id := 13, first_name := "P", last_name := "13", is_available := some true },
   { id := 14, first_name := "P", last_name := "14", is_available := some true },
   { id := 15, first_name := "P", last_name := "15", is_available := some true },
   { id := 16, first_name := "P", last_name := "16", is_available := some true },
   { id := 17, first_name := "P", last_name := "17", is_available := some true },
   { id := 18, first_name := "P", last_name := "18", is_available := some true },
   { id := 19, first_name := "P", last_name := "19", is_available := some true },
   { id := 20, first_name := "P", last_name := "20", is_available := some true }]

/-- A freshly started standalone draft: 4 teams, order `[A,B,C,D]`,
5 rounds, 20 players — 20 picks in total. -/
def c3db : Db :=
  { state := { started := true, current_round := 1, current_pick := 0,
               draft_order := ["A", "B", "C", "D"], max_teams := 4,
               total_rounds := 5 },
    drafts_status := "in_progress",
    teams := [{ id := 1, name := "A", is_bot := false },
              { id := 2, name := "B", is_bot := false },
              { id := 3, name := "C", is_bot := false },
              { id := 4, name := "D", is_bot := false }],
    players := c3players,
    picks := [] }

/-- The full legal 20-pick snake sequence for `c3db`. -/
def c3moves : List (String × String) :=
  [("A", "P 1"), ("B", "P 2"), ("C", "P 3"), ("D", "P 4"),
   ("D", "P 5"), ("C", "P 6"), ("B", "P 7"), ("A", "P 8"),
   ("A", "P 9"), ("B", "P 10"), ("C", "P 11"), ("D", "P 12"),
   ("D", "P 13"), ("C", "P 14"), ("B", "P 15"), ("A", "P 16"),
   ("A", "P 17"), ("B", "P 18"), ("C", "P 19"), ("D", "P 20")]

/-- With a nonempty order, the index-arithmetic resolver is a plain list
lookup: position `pick % N` on odd rounds, mirrored on even rounds. -/
theorem mockNextTeam_get (order : List String) (round pick : Nat)
    (hne : order.length ≠ 0) :
    mockNextTeam order round pick =
      order.get? (if round % 2 = 0 then order.length - 1 - pick % order.length
                  else pick % order.length) := by
  unfold mockNextTeam sqlArrayGet
  have hpos : pick % order.length < order.length := Nat.mod_lt _ (Nat.pos_of_ne_zero hne)
  by_cases he : round % 2 = 0
  · rw [if_pos he, if_pos he, if_neg (by omega)]
    congr 1
    omega
  · rw [if_neg he, if_neg he, if_neg (by omega)]
    simp

/-- On a started state the array-reversal resolver of the standalone
system computes the same team as the index-arithmetic resolver of the
mock system. -/
theorem get_next_team_eq_mock (s : DraftState) (hstart : s.started = true) :
    get_next_team s = mockNextTeam s.draft_order s.current_round s.current_pick := by
  unfold get_next_team
  rw [hstart]
  simp only [Bool.true_eq_false, if_false]
  by_cases hN : s.draft_order.length = 0
  · rw [if_pos hN]
    have horder : s.draft_order = [] := List.eq_nil_of_length_eq_zero hN
    by_cases he : s.current_round % 2 = 0 <;>
      simp [he, horder, mockNextTeam, sqlArrayGet]
  · rw [if_neg hN, mockNextTeam_get s.draft_order _ _ hN]
    have hpos : s.current_pick % s.draft_order.length < s.draft_order.length :=
      Nat.mod_lt _ (Nat.pos_of_ne_zero hN)
    by_cases he : s.current_round % 2 = 0
    · rw [if_pos he, if_pos he]
      unfold sqlArrayGet
      rw [if_neg (by omega)]
      rw [List.get?_eq_getElem?, List.get?_eq_getElem?]
      simpa using List.getElem?_reverse (by simpa using hpos)
    · rw [if_neg he, if_neg he]
      unfold sqlArrayGet
      rw [if_neg (by omega)]
      simp

/-- Claim C1: snake turn alternation.  For a started state over any order
of `N ≥ 2` teams, in round `r` at pick-in-round position `p` (so the
total-pick counter reads `(r-1)*N + p`), both the standalone resolver
`get_next_team` and the inline calculation of the mock system return
`order[p]` (0-indexed) when `r` is odd and `order[N-1-p]` when `r` is
even. -/
theorem snake_turn_alternation (s : DraftState) (N r p : Nat)
    (hstart : s.started = true) (hlen : s.draft_order.length = N) (hN : 2 ≤ N)
    (hround : s.current_round = r) (hr : 1 ≤ r)
    (hpick : s.current_pick = (r - 1) * N + p) (hp : p ≤ N - 1) :
    (r % 2 = 1 →
      get_next_team s = s.draft_order.get? p ∧
      mockNextTeam s.draft_order r s.current_pick = s.draft_order.get? p) ∧
    (r % 2 = 0 →
      get_next_team s = s.draft_order.get? (N - 1 - p) ∧
      mockNextTeam s.draft_order r s.current_pick = s.draft_order.get? (N - 1 - p)) := by
  have hNz : s.draft_order.length ≠ 0 := by omega
  have hmodp : s.current_pick % s.draft_order.length = p := by
    rw [hpick, hlen, Nat.mul_comm (r - 1) N, Nat.mul_add_mod]
    exact Nat.mod_eq_of_lt (by omega)
  have hmock := mockNextTeam_get s.draft_order s.current_round s.current_pick hNz
  have hgn := get_next_team_eq_mock s hstart
  rw [hmodp, hlen, hround] at hmock
  rw [hround] at hgn
  rw [hmock] at hgn
  constructor
  · intro hodd
    have he : ¬ r % 2 = 0 := by omega
    rw [if_neg he] at hmock hgn
    exact ⟨hgn, hmock⟩
  · intro heven
    rw [if_pos heven] at hmock hgn
    exact ⟨hgn, hmock⟩

/-- Claim C1 witness: four teams, round 2, pick-in-round 1 — both
resolvers return `order[4-1-1] = "C"`. -/
theorem snake_turn_alternation_witness :
    get_next_team { started := true, current_round := 2, current_pick := 5,
                    draft_order := ["A", "B", "C", "D"], max_teams := 4,
                    total_rounds := 5 } = some "C" ∧
    mockNextTeam ["A", "B", "C", "D"] 2 5 = some "C" := by
  have h := snake_turn_alternation
    { started := true, current_round := 2, current_pick := 5,
      draft_order := ["A", "B", "C", "D"], max_teams := 4, total_rounds := 5 }
    4 2 1 rfl rfl (by decide) rfl (by decide) rfl (by decide)
  have h2 := h.2 (by decide)
  exact ⟨by simpa using h2.1, by simpa using h2.2⟩

/-- Claim C9: resolver membership.  On a started state with a nonempty
order, both resolvers return a team that is an element of `draft_order`,
and the 1-based subscripts they compute (`position + 1` odd / reversed,
`team_count - position` even inline) lie within `1 .. team_count`. -/
theorem resolver_membership (s : DraftState) (hstart : s.started = true)
    (hne : s.draft_order ≠ []) :
    ∃ t, get_next_team s = some t ∧ t ∈ s.draft_order ∧
      mockNextTeam s.draft_order s.current_round s.current_pick = some t ∧
      1 ≤ s.current_pick % s.draft_order.length + 1 ∧
      s.current_pick % s.draft_order.length + 1 ≤ s.draft_order.length ∧
      (s.current_round % 2 = 0 →
        1 ≤ s.draft_order.length - s.current_pick % s.draft_order.length ∧
        s.draft_order.length - s.current_pick % s.draft_order.length ≤
          s.draft_order.length) := by
  have hNz : s.draft_order.length ≠ 0 := by
    have := List.length_pos.mpr hne
    omega
  have hpos : s.current_pick % s.draft_order.length < s.draft_order.length :=
    Nat.mod_lt _ (Nat.pos_of_ne_zero hNz)
  have hmock := mockNextTeam_get s.draft_order s.current_round s.current_pick hNz
  have hgn := get_next_team_eq_mock s hstart
  have hidx : (if s.current_round % 2 = 0 then
      s.draft_order.length - 1 - s.current_pick % s.draft_order.length
    else s.current_pick % s.draft_order.length) < s.draft_order.length := by
    by_cases he : s.current_round % 2 = 0 <;> simp [he] <;> omega
  refine ⟨s.draft_order.get ⟨_, hidx⟩, ?_, ?_, ?_, ?_, ?_, ?_⟩
  · rw [hgn, hmock]
    exact List.get?_eq_get hidx
  · exact List.get_mem _ _ hidx
  · rw [hmock]
    exact List.get?_eq_get hidx
  · omega
  · omega
  · intro _
    omega

/-- Claim C9 witness: a concrete started state — the resolver returns a
member of the order and the subscript bounds hold. -/
theorem resolver_membership_witness :
    ∃ t, get_next_team { started := true, current_round := 1, current_pick := 2,
                         draft_order := ["A", "B", "C"], max_teams := 3,
                         total_rounds := 5 } = some t ∧
      t ∈ ["A", "B", "C"] := by
  have h := resolver_membership
    { started := true, current_round := 1, current_pick := 2,
      draft_order := ["A", "B", "C"], max_teams := 3, total_rounds := 5 }
    rfl (by decide)
  obtain ⟨t, h1, h2, -⟩ := h
  exact ⟨t, h1, h2⟩

/-- Claim C7: start-draft precondition.  `start_draft` succeeds exactly
when the number of registered teams equals the league's required count;
otherwise it raises `preconditionFailed` carrying both counts, and —
the exception aborting the transaction — neither the order nor any other
state is written. -/
theorem start_draft_precondition (required_teams : Nat) (league_teams : List Team)
    (shuffled_teams : List String) (s : DraftState) :
    ((start_draft required_teams league_teams shuffled_teams s).isOk = true ↔
      league_teams.length = required_teams) ∧
    (league_teams.length ≠ required_teams →
      start_draft required_teams league_teams shuffled_teams s =
        Except.error (StartErr.preconditionFailed required_teams league_teams.length)) := by
  unfold start_draft
  by_cases h : league_teams.length = required_teams
  · rw [if_neg (by omega)]
    refine ⟨by simp [Except.isOk, Except.toBool, h], by intro hne; omega⟩
  · rw [if_pos h]
    exact ⟨by simp [Except.isOk, Except.toBool, h], by intro _; rfl⟩

/-- Claim C7 witness: three teams registered but four required — the call
fails with the precondition error and never succeeds. -/
theorem start_draft_precondition_witness :
    start_draft 4 [{ id := 1, name := "A", is_bot := false },
                   { id := 2, name := "B", is_bot := false },
                   { id := 3, name := "C", is_bot := false }] ["A", "B", "C"]
      { started := false, current_round := 1, current_pick := 0, draft_order := [],
        max_teams := 4, total_rounds := 5 } =
      Except.error (StartErr.preconditionFailed 4 3) :=
  (start_draft_precondition 4 _ _ _).2 (by decide)

/-- A wrong-turn call of `make_mock_draft_pick` raises `wrongTurn`
carrying the resolved team. -/
theorem make_mock_draft_pick_wrong_turn (teams : List Team) (players : List Player)
    (picks : List PickRecord) (d : MockDraft) (name : String) (pid : Nat) (nt : String)
    (hst : d.status = DraftStatus.inProgress)
    (hnext : mockNextTeam d.draft_order d.current_round d.current_pick = some nt)
    (hne : name ≠ nt) :
    make_mock_draft_pick teams players picks d name pid =
      Except.error (MockPickErr.wrongTurn nt) := by
  unfold make_mock_draft_pick
  rw [hst]
  simp only [ne_eq, not_true_eq_false, if_false, hnext]
  have hsq : sqlNeq (some nt) (some name) = true := by
    simp only [sqlNeq, bne_iff_ne, ne_eq, decide_eq_true_eq]
    exact fun h => hne h.symm
  rw [if_pos hsq]
  rfl

/-- A wrong-turn call of the standalone `make_pick` raises the fixed
`wrongTurn` error. -/
theorem make_pick_wrong_turn (db : Db) (name pname nt : String)
    (hstart : db.state.started = true)
    (hnext : get_next_team db.state = some nt) (hne : name ≠ nt) :
    make_pick db name pname = Except.error PickErr.wrongTurn := by
  unfold make_pick
  simp only [hstart, Bool.true_eq_false, if_false, hnext]
  have hsq : sqlNeq (some nt) (some name) = true := by
    simp only [sqlNeq, bne_iff_ne, ne_eq, decide_eq_true_eq]
    exact fun h => hne h.symm
  rw [if_pos hsq]

/-- Claim C5 (amended): wrong-turn semantics.  A pick request by a team
other than the one the resolver returns fails with the wrong-turn error
and — the exception rolling the transaction back — creates no pick and
changes no state.  In `make_mock_draft_pick` the raised message
interpolates (surfaces) the expected team's name; in the standalone
`make_pick` the message is the fixed string `"Not your turn!"`, which
does not mention the expected team. -/
theorem wrong_turn_semantics (teams : List Team) (players : List Player)
    (picks : List PickRecord) (d : MockDraft) (name : String) (pid : Nat) (nt : String)
    (hst : d.status = DraftStatus.inProgress)
    (hnext : mockNextTeam d.draft_order d.current_round d.current_pick = some nt)
    (hne : name ≠ nt)
    (db : Db) (name2 pname nt2 : String)
    (hstart2 : db.state.started = true)
    (hnext2 : get_next_team db.state = some nt2) (hne2 : name2 ≠ nt2) :
    make_mock_draft_pick teams players picks d name pid =
      Except.error (MockPickErr.wrongTurn nt) ∧
    nt.toList <:+: (MockPickErr.wrongTurn nt).message.toList ∧
    make_pick db name2 pname = Except.error PickErr.wrongTurn ∧
    PickErr.wrongTurn.message = "Not your turn!" := by
  refine ⟨make_mock_draft_pick_wrong_turn teams players picks d name pid nt hst hnext hne,
    ?_, make_pick_wrong_turn db name2 pname nt2 hstart2 hnext2 hne2, rfl⟩
  show nt.toList <:+: ("Not this team\x27s turn! Current turn: " ++ nt).toList
  have hdata : ("Not this team\x27s turn! Current turn: " ++ nt).data =
      ("Not this team\x27s turn! Current turn: ").data ++ nt.data := rfl
  show nt.data <:+: ("Not this team\x27s turn! Current turn: " ++ nt).data
  rw [hdata]
  exact List.IsSuffix.isInfix (List.suffix_append _ _)

/-- Claim C5 counterexample: in the standalone system, with draft order
`[A,B,C,D]` at round 1, pick 1, the resolver expects team `"B"`; a pick
attempt by `"D"` does fail with the wrong-turn error, but its message is
the fixed `"Not your turn!"`, which does not surface `"B"` — the claim's
message requirement is false for `make_pick`. -/
theorem wrong_turn_message_cex :
    get_next_team { started := true, current_round := 1, current_pick := 1,
                    draft_order := ["A", "B", "C", "D"], max_teams := 4,
                    total_rounds := 5 } = some "B" ∧
    make_pick { state := { started := true, current_round := 1, current_pick := 1,
                           draft_order := ["A", "B", "C", "D"], max_teams := 4,
                           total_rounds := 5 },
                drafts_status := "in_progress",
                teams := [{ id := 1, name := "A", is_bot := false },
                          { id := 2, name := "B", is_bot := false },
                          { id := 3, name := "C", is_bot := false },
                          { id := 4, name := "D", is_bot := false }],
                players := [{ id := 1, first_name := "P", last_name := "1",
                              is_available := some true }],
                picks := [] } "D" "P 1" = Except.error PickErr.wrongTurn ∧
    ¬ ("B".toList <:+: PickErr.wrongTurn.message.toList) := by
  refine ⟨rfl, rfl, by decide⟩

/-- Claim C4: no double-draft.  If a player already has a committed pick
record in this mock-draft instance, any further `make_mock_draft_pick`
targeting that player never succeeds (hence — exceptions rolling back —
creates no second record); and whenever the request survives the earlier
status, turn and team checks, the failure is precisely the
player-already-picked (player-unavailable) error. -/
theorem no_double_draft (teams : List Team) (players : List Player)
    (picks : List PickRecord) (d : MockDraft) (name : String) (pid : Nat)
    (pk : PickRecord) (hmem : pk ∈ picks) (hpid : pk.player_id = pid) :
    (∀ r d' picks', make_mock_draft_pick teams players picks d name pid ≠
        Except.ok (r, d', picks')) ∧
    (d.status = DraftStatus.inProgress →
      sqlNeq (mockNextTeam d.draft_order d.current_round d.current_pick)
        (some name) = false →
      (teams.find? (fun t => t.name == name)).isSome = true →
      make_mock_draft_pick teams players picks d name pid =
        Except.error MockPickErr.alreadyPicked) := by
  have hany : picks.any (fun pk' => pk'.player_id == pid) = true :=
    List.any_eq_true.mpr ⟨pk, hmem, by simp [hpid]⟩
  constructor
  · intro r d' picks'
    simp only [make_mock_draft_pick, hany]
    repeat' split
    all_goals simp_all
  · intro h1 h2 h3
    obtain ⟨t, ht⟩ := Option.isSome_iff_exists.mp h3
    unfold make_mock_draft_pick
    simp only [h1, ne_eq, not_true_eq_false, if_false, h2, Bool.false_eq_true, ht, hany]
    simp

/-- Claim C4 witness: player 7 already picked; the repeat attempt by the
team on turn fails with the already-picked error. -/
theorem no_double_draft_witness :
    make_mock_draft_pick
      [{ id := 1, name := "A", is_bot := false }, { id := 2, name := "B", is_bot := true }]
      [{ id := 7, first_name := "P", last_name := "7", is_available := none }]
      [{ team_id := 1, player_id := 7, round := 1, pick_number := 1 }]
      { status := DraftStatus.inProgress, total_rounds := 5, current_round := 1,
        current_pick := 1, draft_order := ["A", "B"] } "B" 7 =
      Except.error MockPickErr.alreadyPicked := by
  exact (no_double_draft _ _ _ _ "B" 7
    { team_id := 1, player_id := 7, round := 1, pick_number := 1 }
    (by decide) rfl).2 rfl (by decide) (by decide)

/-- The inline resolver only returns a team when the order is nonempty. -/
theorem mockNextTeam_some_len (order : List String) (round pick : Nat) (nt : String)
    (h : mockNextTeam order round pick = some nt) : order.length ≠ 0 := by
  intro hlen
  have horder : order = [] := List.eq_nil_of_length_eq_zero hlen
  subst horder
  revert h
  by_cases he : round % 2 = 0 <;> simp [mockNextTeam, sqlArrayGet, he]

/-- Claim C6: the bot auto-picker never picks for a human.  When the
draft is in progress and the resolved current-turn team exists and is not
a bot, `make_mock_draft_bot_pick` returns the normal negative result
`notABotTurn` carrying the resolved team's name, applies no pick and
leaves the state unchanged; the client loop `processAllBotPicks` then
stops immediately without touching the state either. -/
theorem bot_never_picks_for_human (teams : List Team) (players : List Player)
    (picks : List PickRecord) (d : MockDraft) (nt : String) (t : Team)
    (hst : d.status = DraftStatus.inProgress)
    (hnext : mockNextTeam d.draft_order d.current_round d.current_pick = some nt)
    (hfind : teams.find? (fun x => x.name == nt) = some t)
    (hbot : t.is_bot = false) :
    make_mock_draft_bot_pick teams players picks d =
      (BotPickOut.notABotTurn (some nt), d, picks) ∧
    (∀ fuel, processAllBotPicks teams players (fuel + 1) picks d = some (d, picks)) := by
  have hlen : d.draft_order.length ≠ 0 := mockNextTeam_some_len _ _ _ _ hnext
  have hnb : isNextPickBot teams d = false := by
    simp [isNextPickBot, state_next_team, Nat.pos_of_ne_zero hlen, hnext, hfind, hbot]
  constructor
  · unfold make_mock_draft_bot_pick
    rw [hst]
    simp only [ne_eq, not_true_eq_false, if_false, hnext, hfind, hbot]
    simp
  · intro fuel
    unfold processAllBotPicks
    rw [hst]
    simp [hnb]

/-- Claim C6 witness: team `"H"` (human) is on turn; the bot picker
returns `notABotTurn "H"` and changes nothing. -/
theorem bot_never_picks_for_human_witness :
    make_mock_draft_bot_pick
      [{ id := 1, name := "H", is_bot := false }, { id := 2, name := "B", is_bot := true }]
      [{ id := 1, first_name := "P", last_name := "1", is_available := none }]
      []
      { status := DraftStatus.inProgress, total_rounds := 5, current_round := 1,
        current_pick := 0, draft_order := ["H", "B"] } =
      (BotPickOut.notABotTurn (some "H"),
       { status := DraftStatus.inProgress, total_rounds := 5, current_round := 1,
         current_pick := 0, draft_order := ["H", "B"] }, []) := by
  exact (bot_never_picks_for_human
    [{ id := 1, name := "H", is_bot := false }, { id := 2, name := "B", is_bot := true }]
    [{ id := 1, first_name := "P", last_name := "1", is_available := none }]
    []
    { status := DraftStatus.inProgress, total_rounds := 5, current_round := 1,
      current_pick := 0, draft_order := ["H", "B"] }
    "H" { id := 1, name := "H", is_bot := false } rfl rfl rfl rfl).1

/-- Claim C5 witness: concrete wrong-turn calls on both systems — the
mock error carries the expected team `"A"`, the standalone error is the
fixed one. -/
theorem wrong_turn_semantics_witness :
    make_mock_draft_pick
      [{ id := 1, name := "A", is_bot := false }, { id := 2, name := "B", is_bot := true }]
      [] []
      { status := DraftStatus.inProgress, total_rounds := 5, current_round := 1,
        current_pick := 0, draft_order := ["A", "B"] } "B" 1 =
      Except.error (MockPickErr.wrongTurn "A") ∧
    "A".toList <:+: (MockPickErr.wrongTurn "A").message.toList := by
  have h := wrong_turn_semantics
    [{ id := 1, name := "A", is_bot := false }, { id := 2, name := "B", is_bot := true }]
    [] []
    { status := DraftStatus.inProgress, total_rounds := 5, current_round := 1,
      current_pick := 0, draft_order := ["A", "B"] } "B" 1 "A" rfl rfl (by decide)
    { state := { started := true, current_round := 1, current_pick := 0,
                 draft_order := ["A", "B"], max_teams := 2, total_rounds := 5 },
      drafts_status := "in_progress", teams := [], players := [], picks := [] }
    "B" "P 1" "A" rfl rfl (by decide)
  exact ⟨h.1, h.2.1⟩

/-- Claim C3 counterexample: a complete legal 20-pick run of the
standalone draft (4 teams, 5 rounds).  All 20 picks succeed, the counter
reaches `total_rounds * team_count = 20`, yet the draft's status is still
`"in_progress"` — `make_pick` never sets any status to completed, so the
claim fails for that operation. -/
theorem completion_boundary_cex :
    Except.map (fun db => (db.state.current_pick,
      db.state.total_rounds * db.state.draft_order.length, db.drafts_status))
      (applyPickSeq c3moves c3db) = Except.ok (20, 20, "in_progress") ∧
    "in_progress" ≠ "completed" := by
  exact ⟨by rfl, by decide⟩

/-- The round-advance assignment of both pick appliers agrees with the
derived round `floor(newPick / teamCount) + 1`, including the degenerate
empty-order case (where SQL computes a NULL modulus and leaves the round
unchanged). -/
theorem advance_round_eq (pick N round : Nat) (hround : round = pick / N + 1) :
    (if (pick + 1) % N = 0 then round + 1 else round) = (pick + 1) / N + 1 := by
  rcases Nat.eq_zero_or_pos N with hN | hN
  · subst hN
    rw [Nat.mod_zero, if_neg (by omega)]
    rw [Nat.div_zero] at hround
    rw [Nat.div_zero]
    omega
  · have hiff : ((pick + 1) % N = 0) ↔ N ∣ (pick + 1) :=
      Nat.dvd_iff_mod_eq_zero.symm
    rw [Nat.succ_div]
    by_cases hd : N ∣ pick + 1
    · rw [if_pos (hiff.mpr hd), if_pos hd]
      omega
    · rw [if_neg (fun hc => hd (hiff.mp hc)), if_neg hd]
      omega

/-- Crossing the completion boundary: with `pick < R*N` committed picks,
the new derived round exceeds `R` exactly when the new pick number is
`R*N`. -/
theorem completion_iff (pick N R : Nat) (hN : 0 < N)
    (hpick : pick < R * N) : ((pick + 1) / N + 1 > R ↔ pick + 1 = R * N) := by
  constructor
  · intro hgt
    have hge : R ≤ (pick + 1) / N := by omega
    have := (Nat.le_div_iff_mul_le hN).mp hge
    omega
  · intro heq
    have : R ≤ (pick + 1) / N := (Nat.le_div_iff_mul_le hN).mpr (by omega)
    omega

/-- Inversion of a successful `make_mock_draft_pick`: the checks it
passed and the exact state and ledger it committed. -/
theorem make_mock_draft_pick_ok (teams : List Team) (players : List Player)
    (picks : List PickRecord) (d : MockDraft) (name : String) (pid : Nat)
    (r : MockPickOk) (d' : MockDraft) (picks' : List PickRecord)
    (h : make_mock_draft_pick teams players picks d name pid =
      Except.ok (r, d', picks')) :
    d.status = DraftStatus.inProgress ∧
    picks.any (fun pk => pk.player_id == pid) = false ∧
    (∃ pl ∈ players, pl.id = pid) ∧
    (∃ tid, picks' = picks ++
      [{ team_id := tid, player_id := pid, round := d.current_round,
         pick_number := d.current_pick + 1 }]) ∧
    d'.current_pick = d.current_pick + 1 ∧
    d'.current_round = (if (d.current_pick + 1) % d.draft_order.length = 0
      then d.current_round + 1 else d.current_round) ∧
    d'.draft_order = d.draft_order ∧
    d'.total_rounds = d.total_rounds ∧
    d'.status = (if d'.current_round > d.total_rounds then DraftStatus.completed
      else DraftStatus.inProgress) ∧
    r.pick_number = d.current_pick + 1 := by
  unfold make_mock_draft_pick at h
  dsimp only at h
  split at h
  · cases h
  · split at h
    · cases h
    · split at h
      · cases h
      · split at h
        · cases h
        · split at h
          · cases h
          · rename_i hstatus hsql xo v_team hteam hany xp pl hplayer
            have hplid : pl.id = pid := by simpa using List.find?_some hplayer
            have hplmem : pl ∈ players := List.mem_of_find?_eq_some hplayer
            have hstat : d.status = DraftStatus.inProgress := by
              by_cases hc : d.status = DraftStatus.inProgress
              · exact hc
              · exact absurd hc (by simpa using hstatus)
            have hany' : picks.any (fun pk => pk.player_id == pid) = false := by
              simpa using hany
            simp only [Except.ok.injEq, Prod.mk.injEq] at h
            obtain ⟨hro, hd', hpicks'⟩ := h
            refine ⟨hstat, hany', ⟨pl, hplmem, hplid⟩, ⟨v_team.id, hpicks'.symm⟩,
              ?_, ?_, ?_, ?_, ?_, ?_⟩
            · rw [← hd']
            · rw [← hd']
            · rw [← hd']
            · rw [← hd']
            · rw [← hd']
            · rw [← hro]

/-- Inversion of a successful `make_pick`: the committed counters and
ledger, and the fact that no status column was touched. -/
theorem make_pick_ok (db : Db) (name pname : String) (r : PickOk) (db' : Db)
    (h : make_pick db name pname = Except.ok (r, db')) :
    db.state.started = true ∧
    db'.drafts_status = db.drafts_status ∧
    (∃ tid plid, db'.picks = db.picks ++
      [{ team_id := tid, player_id := plid, round := db.state.current_round,
         pick_number := db.state.current_pick + 1 }]) ∧
    db'.state.current_pick = db.state.current_pick + 1 ∧
    db'.state.current_round =
      (if (db.state.current_pick + 1) % db.state.draft_order.length = 0
       then db.state.current_round + 1 else db.state.current_round) ∧
    db'.state.draft_order = db.state.draft_order ∧
    db'.state.started = db.state.started ∧
    r.pick_number = db.state.current_pick + 1 := by
  unfold make_pick at h
  dsimp only at h
  split at h
  · cases h
  · split at h
    · cases h
    · split at h
      · cases h
      · split at h
        · cases h
        · rename_i hstarted hsql xo v_team hteam xp v_player hplayer
          have hstart : db.state.started = true := by
            by_cases hc : db.state.started = true
            · exact hc
            · exact absurd (by simpa using hc) hstarted
          simp only [Except.ok.injEq, Prod.mk.injEq] at h
          obtain ⟨hro, hdb'⟩ := h
          refine ⟨hstart, by rw [← hdb'], ⟨v_team.id, v_player.id, by rw [← hdb']⟩,
            ?_, ?_, ?_, ?_, ?_⟩
          · rw [← hdb']
          · rw [← hdb']
          · rw [← hdb']
          · rw [← hdb']
          · rw [← hro]

/-- Every reachable mock-draft state satisfies the inductive
invariant. -/
theorem mockReachable_inv {teams : List Team} {players : List Player}
    {d : MockDraft} {picks : List PickRecord}
    (h : MockReachable teams players d picks) : MockInv d picks := by
  induction h with
  | start order total_rounds hlen hR =>
    have hmul : 0 < total_rounds * order.length :=
      Nat.mul_pos (by omega) (by omega)
    refine ⟨hlen, hR, by simp, by simp [List.range'], by simp, ?_, ?_, Or.inl rfl⟩
    · constructor
      · intro hc
        cases hc
      · intro h0
        dsimp only at h0
        omega
    · intro _
      simpa using hmul
  | step d picks name pid r d' picks' hreach hok ih =>
    obtain ⟨hlen, hR, hround, hmap, hrec, hcompl, hprog, hdisj⟩ := ih
    obtain ⟨hstat, hany, hplmem, ⟨tid, hpicks'⟩, hcp, hcr, hord, htot, hstat', hrn⟩ :=
      make_mock_draft_pick_ok teams players picks d name pid r d' picks' hok
    have hNpos : 0 < d.draft_order.length := by omega
    have hlt : d.current_pick < d.total_rounds * d.draft_order.length := hprog hstat
    have hcr' : d'.current_round = (d.current_pick + 1) / d.draft_order.length + 1 := by
      rw [hcr]
      exact advance_round_eq d.current_pick d.draft_order.length d.current_round hround
    have hci := completion_iff d.current_pick d.draft_order.length d.total_rounds
      hNpos hlt
    refine ⟨by rw [hord]; exact hlen, by rw [htot]; exact hR, ?_, ?_, ?_, ?_, ?_, ?_⟩
    · rw [hcr', hcp, hord]
    · rw [hpicks', List.map_append, hmap, hcp]
      simp [List.range'_1_concat, Nat.add_comm]
    · intro pk hpk
      rw [hord]
      rcases List.mem_append.mp (hpicks' ▸ hpk) with hold | hnew
      · exact hrec pk hold
      · have hpkeq : pk = (⟨tid, pid, d.current_round, d.current_pick + 1⟩ : PickRecord) := by
          simpa using hnew
        rw [hpkeq]
        simpa using hround
    · rw [hstat', hcp, htot, hord, hcr']
      by_cases hgt : (d.current_pick + 1) / d.draft_order.length + 1 > d.total_rounds
      · rw [if_pos hgt]
        exact ⟨fun _ => hci.mp hgt, fun _ => rfl⟩
      · rw [if_neg hgt]
        constructor
        · intro hc
          cases hc
        · intro heq
          exact absurd (hci.mpr heq) hgt
    · intro hprog'
      rw [hcp, htot, hord]
      rw [hstat', hcr'] at hprog'
      by_cases hgt : (d.current_pick + 1) / d.draft_order.length + 1 > d.total_rounds
      · rw [if_pos hgt] at hprog'
        cases hprog'
      · have hne : d.current_pick + 1 ≠ d.total_rounds * d.draft_order.length :=
          fun heq => hgt (hci.mpr heq)
        omega
    · rw [hstat']
      by_cases hgt : d'.current_round > d.total_rounds
      · rw [if_pos hgt]
        exact Or.inr rfl
      · rw [if_neg hgt]
        exact Or.inl rfl

/-- Every reachable standalone-draft database satisfies the inductive
invariant; in particular the `drafts` row status never leaves
`'in_progress'` along a pick sequence. -/
theorem dbReachable_inv {db : Db} (h : DbReachable db) : DbInv db := by
  induction h with
  | start db hstart hround hpick hpicks hstatus =>
    refine ⟨?_, ?_, ?_, hstatus⟩
    · rw [hround, hpick, Nat.zero_div]
    · rw [hpicks, hpick]
      simp [List.range']
    · rw [hpicks]
      intro pk hpk
      cases hpk
  | step db name pname r db' hreach hok ih =>
    obtain ⟨hround, hmap, hrec, hstatus⟩ := ih
    obtain ⟨hstart, hst', ⟨tid, plid, hpicks'⟩, hcp, hcr, hord, hstarted', hrn⟩ :=
      make_pick_ok db name pname r db' hok
    refine ⟨?_, ?_, ?_, by rw [hst']; exact hstatus⟩
    · rw [hcr, hcp, hord]
      exact advance_round_eq db.state.current_pick db.state.draft_order.length
        db.state.current_round hround
    · rw [hpicks', List.map_append, hmap, hcp]
      simp [List.range'_1_concat, Nat.add_comm]
    · intro pk hpk
      rw [hord]
      rcases List.mem_append.mp (hpicks' ▸ hpk) with hold | hnew
      · exact hrec pk hold
      · have hpkeq : pk = (⟨tid, plid, db.state.current_round,
          db.state.current_pick + 1⟩ : PickRecord) := by
          simpa using hnew
        rw [hpkeq]
        simpa using hround

/-- Claim C2: pick-number monotonicity.  Along any sequence of successful
picks from a fresh state — in either pick applier — the ledger carries
pick numbers exactly `1, 2, ..., K` (`K` the number of successful picks),
and each successful call appends one record whose `pick_number` is the
incremented counter and whose `round` is the pre-increment
`currentRound`. -/
theorem pick_number_monotonicity :
    (∀ (teams : List Team) (players : List Player) (d : MockDraft)
        (picks : List PickRecord), MockReachable teams players d picks →
      picks.map (fun pk => pk.pick_number) = List.range' 1 d.current_pick ∧
      picks.length = d.current_pick) ∧
    (∀ (teams : List Team) (players : List Player) (picks : List PickRecord)
        (d : MockDraft) (name : String) (pid : Nat) (r : MockPickOk)
        (d' : MockDraft) (picks' : List PickRecord),
      make_mock_draft_pick teams players picks d name pid =
        Except.ok (r, d', picks') →
      ∃ pk, picks' = picks ++ [pk] ∧ pk.pick_number = d.current_pick + 1 ∧
        pk.round = d.current_round) ∧
    (∀ db : Db, DbReachable db →
      db.picks.map (fun pk => pk.pick_number) =
        List.range' 1 db.state.current_pick ∧
      db.picks.length = db.state.current_pick) ∧
    (∀ (db : Db) (name pname : String) (r : PickOk) (db' : Db),
      make_pick db name pname = Except.ok (r, db') →
      ∃ pk, db'.picks = db.picks ++ [pk] ∧
        pk.pick_number = db.state.current_pick + 1 ∧
        pk.round = db.state.current_round) := by
  refine ⟨?_, ?_, ?_, ?_⟩
  · intro teams players d picks h
    obtain ⟨-, -, -, hmap, -, -, -, -⟩ := mockReachable_inv h
    refine ⟨hmap, ?_⟩
    have := congrArg List.length hmap
    simpa using this
  · intro teams players picks d name pid r d' picks' hok
    obtain ⟨-, -, -, ⟨tid, hpicks'⟩, -, -, -, -, -, -⟩ :=
      make_mock_draft_pick_ok teams players picks d name pid r d' picks' hok
    exact ⟨_, hpicks', rfl, rfl⟩
  · intro db h
    obtain ⟨-, hmap, -, -⟩ := dbReachable_inv h
    refine ⟨hmap, ?_⟩
    have := congrArg List.length hmap
    simpa using this
  · intro db name pname r db' hok
    obtain ⟨-, -, ⟨tid, plid, hpicks'⟩, -, -, -, -, -⟩ :=
      make_pick_ok db name pname r db' hok
    exact ⟨_, hpicks', rfl, rfl⟩

/-- Claim C2 witness: after one successful pick from a fresh two-team
mock draft the ledger reads exactly `[1]`. -/
theorem pick_number_monotonicity_witness :
    List.map (fun pk => pk.pick_number)
      [({ team_id := 1, player_id := 1, round := 1, pick_number := 1 } : PickRecord)] =
      List.range' 1 1 := by
  have hok : make_mock_draft_pick
      [{ id := 1, name := "A", is_bot := false }, { id := 2, name := "B", is_bot := true }]
      [{ id := 1, first_name := "P", last_name := "1", is_available := none }]
      []
      { status := DraftStatus.inProgress, total_rounds := 5, current_round := 1,
        current_pick := 0, draft_order := ["A", "B"] } "A" 1 =
      Except.ok
        ({ message := "A picked P 1", pick_number := 1, round := 1,
           player_name := "P 1", is_complete := false },
         { status := DraftStatus.inProgress, total_rounds := 5, current_round := 1,
           current_pick := 1, draft_order := ["A", "B"] },
         [{ team_id := 1, player_id := 1, round := 1, pick_number := 1 }]) := by rfl
  have hreach := MockReachable.step _ _ "A" 1 _ _ _
    (MockReachable.start ["A", "B"] 5 (by decide) (by decide)) hok
  exact (pick_number_monotonicity.1 _ _ _ _ hreach).1

/-- Claim C8: round-counter redundancy.  In every reachable state of
either system, the stored `currentRound` equals
`floor(currentPick / teamCount) + 1`. -/
theorem round_counter_agreement :
    (∀ (teams : List Team) (players : List Player) (d : MockDraft)
        (picks : List PickRecord), MockReachable teams players d picks →
      d.current_round = d.current_pick / d.draft_order.length + 1) ∧
    (∀ db : Db, DbReachable db →
      db.state.current_round =
        db.state.current_pick / db.state.draft_order.length + 1) := by
  constructor
  · intro teams players d picks h
    obtain ⟨-, -, hround, -, -, -, -, -⟩ := mockReachable_inv h
    exact hround
  · intro db h
    exact (dbReachable_inv h).1

/-- Claim C8 witness: the invariant instantiated after one pick of a
two-team mock draft — round 1 equals `1 / 2 + 1`. -/
theorem round_counter_agreement_witness : (1 : Nat) = 1 / 2 + 1 := by
  have hok : make_mock_draft_pick
      [{ id := 1, name := "A", is_bot := false }, { id := 2, name := "B", is_bot := true }]
      [{ id := 1, first_name := "P", last_name := "1", is_available := none }]
      []
      { status := DraftStatus.inProgress, total_rounds := 5, current_round := 1,
        current_pick := 0, draft_order := ["A", "B"] } "A" 1 =
      Except.ok
        ({ message := "A picked P 1", pick_number := 1, round := 1,
           player_name := "P 1", is_complete := false },
         { status := DraftStatus.inProgress, total_rounds := 5, current_round := 1,
           current_pick := 1, draft_order := ["A", "B"] },
         [{ team_id := 1, player_id := 1, round := 1, pick_number := 1 }]) := by rfl
  have hreach := MockReachable.step _ _ "A" 1 _ _ _
    (MockReachable.start ["A", "B"] 5 (by decide) (by decide)) hok
  have := round_counter_agreement.1 _ _ _ _ hreach
  simpa using this

/-- Claim C3 (amended): completion boundary.  For the mock system, a
reachable state is `completed` exactly when `current_pick` equals
`totalRounds * teamCount`, an in-progress state is strictly below that
bound, and a successful pick from a reachable state completes the draft
exactly when the new pick number reaches the bound.  The standalone
`make_pick` never writes any status: a successful call leaves the
`drafts` row status unchanged, so the standalone draft never transitions
to completed through pick application. -/
theorem completion_boundary :
    (∀ (teams : List Team) (players : List Player) (d : MockDraft)
        (picks : List PickRecord), MockReachable teams players d picks →
      (d.status = DraftStatus.completed ↔
        d.current_pick = d.total_rounds * d.draft_order.length) ∧
      (d.status = DraftStatus.inProgress →
        d.current_pick < d.total_rounds * d.draft_order.length)) ∧
    (∀ (teams : List Team) (players : List Player) (d : MockDraft)
        (picks : List PickRecord) (name : String) (pid : Nat) (r : MockPickOk)
        (d' : MockDraft) (picks' : List PickRecord),
      MockReachable teams players d picks →
      make_mock_draft_pick teams players picks d name pid =
        Except.ok (r, d', picks') →
      (d'.status = DraftStatus.completed ↔
        d.current_pick + 1 = d.total_rounds * d.draft_order.length)) ∧
    (∀ (db : Db) (name pname : String) (r : PickOk) (db' : Db),
      make_pick db name pname = Except.ok (r, db') →
      db'.drafts_status = db.drafts_status) := by
  refine ⟨?_, ?_, ?_⟩
  · intro teams players d picks h
    obtain ⟨-, -, -, -, -, hcompl, hprog, -⟩ := mockReachable_inv h
    exact ⟨hcompl, hprog⟩
  · intro teams players d picks name pid r d' picks' h hok
    have hreach' := MockReachable.step d picks name pid r d' picks' h hok
    obtain ⟨-, -, -, -, -, hcompl', -, -⟩ := mockReachable_inv hreach'
    obtain ⟨-, -, -, -, hcp, -, hord, htot, -, -⟩ :=
      make_mock_draft_pick_ok teams players picks d name pid r d' picks' hok
    rw [hcp, hord, htot] at hcompl'
    exact hcompl'
  · intro db name pname r db' hok
    exact (make_pick_ok db name pname r db' hok).2.1

/-- Claim C3 witness: the first pick of a one-round two-team mock draft
does not complete it (`1 ≠ 1 * 2`), while the second pick does; here the
first-pick instance is checked. -/
theorem completion_boundary_witness :
    ¬ (DraftStatus.inProgress = DraftStatus.completed) := by
  have hok : make_mock_draft_pick
      [{ id := 1, name := "A", is_bot := false }, { id := 2, name := "B", is_bot := true }]
      [{ id := 1, first_name := "P", last_name := "1", is_available := none }]
      []
      { status := DraftStatus.inProgress, total_rounds := 1, current_round := 1,
        current_pick := 0, draft_order := ["A", "B"] } "A" 1 =
      Except.ok
        ({ message := "A picked P 1", pick_number := 1, round := 1,
           player_name := "P 1", is_complete := false },
         { status := DraftStatus.inProgress, total_rounds := 1, current_round := 1,
           current_pick := 1, draft_order := ["A", "B"] },
         [{ team_id := 1, player_id := 1, round := 1, pick_number := 1 }]) := by rfl
  have hiff := completion_boundary.2.1 _ _ _ _ "A" 1 _ _ _
    (MockReachable.start ["A", "B"] 1 (by decide) (by decide)) hok
  intro hc
  have : (1 : Nat) = 1 * 2 := by
    apply hiff.mp
    simpa using hc
  omega

/-- Strict monotone-count argument: if `q` implies `p` pointwise on `l`
and some element of `l` satisfies `p` but not `q`, then strictly fewer
elements satisfy `q`. -/
theorem countP_lt_of_gap {α : Type} (p q : α → Bool) (l : List α)
    (hmono : ∀ b ∈ l, q b = true → p b = true) (a : α) (ha : a ∈ l)
    (hpa : p a = true) (hqa : q a = false) : l.countP q < l.countP p := by
  induction l with
  | nil => cases ha
  | cons x xs ih =>
    rw [List.countP_cons, List.countP_cons]
    have hmx : ∀ b ∈ xs, q b = true → p b = true := fun b hb =>
      hmono b (List.mem_cons_of_mem x hb)
    have hle : xs.countP q ≤ xs.countP p := List.countP_mono_left hmx
    rcases List.mem_cons.mp ha with hax | hax
    · subst hax
      rw [hqa, hpa]
      simp only [if_true, if_false, Bool.false_eq_true]
      omega
    · have hlt : xs.countP q < xs.countP p := ih hmx hax
      have hx := hmono x (List.mem_cons_self x xs)
      by_cases hqx : q x = true
      · rw [hqx, hx hqx]
        simp only [if_true]
        omega
      · rw [(by simpa using hqx : q x = false)]
        by_cases hpx : p x = true
        · rw [hpx]
          simp only [if_true, if_false, Bool.false_eq_true]
          omega
        · rw [(by simpa using hpx : p x = false)]
          simp only [if_true, if_false, Bool.false_eq_true]
          omega

/-- Inversion of a committing bot pick: it advanced the pick counter by
one and consumed one available player, so the pool of available players
strictly shrinks. -/
theorem bot_pick_picked (teams : List Team) (players : List Player)
    (picks : List PickRecord) (d : MockDraft) (r : MockPickOk) (d' : MockDraft)
    (picks' : List PickRecord)
    (h : make_mock_draft_bot_pick teams players picks d =
      (BotPickOut.picked r, d', picks')) :
    d'.current_pick = d.current_pick + 1 ∧
    availableCount players picks' < availableCount players picks := by
  unfold make_mock_draft_bot_pick at h
  split at h
  · simp at h
  · split at h
    · simp at h
    · rename_i v_next_team hnext
      split at h
      · simp at h
      · rename_i v_team hteam
        split at h
        · simp at h
        · split at h
          · simp at h
          · rename_i hbot xp v_player hplayer
            split at h
            · rename_i r0 d0 picks0 hok
              simp only [Prod.mk.injEq, BotPickOut.picked.injEq] at h
              obtain ⟨hr0, hd0, hpicks0⟩ := h
              rw [hd0] at hok
              rw [hpicks0] at hok
              have hpred := List.find?_some hplayer
              have hmem := List.mem_of_find?_eq_some hplayer
              have hav : picks.any (fun pk => pk.player_id == v_player.id) = false := by
                simpa using hpred
              obtain ⟨-, -, -, ⟨tid, hpicks'⟩, hcp, -, -, -, -, -⟩ :=
                make_mock_draft_pick_ok teams players picks d v_next_team
                  v_player.id r0 d' picks' hok
              refine ⟨hcp, ?_⟩
              rw [hpicks']
              unfold availableCount
              rw [← List.countP_eq_length_filter, ← List.countP_eq_length_filter]
              refine countP_lt_of_gap _ _ players ?_ v_player hmem ?_ ?_
              · intro b hb hqb
                simp only [List.any_append, Bool.not_or, Bool.and_eq_true,
                  Bool.not_eq_true'] at hqb
                simp [hqb.1]
              · simpa using hav
              · simp [List.any_append]
            · rename_i hnotok
              simp at h

/-- Claim C10: termination of the bot loop.  An iteration budget of
`availableCount players picks + 1` always suffices for
`processAllBotPicks` to stop (the loop's `none` budget-exhausted answer
never occurs): every iteration either breaks — draft no longer in
progress, a human's turn, a failed bot pick, or a completing pick — or
commits one pick, which increments `current_pick` and strictly shrinks
the finite pool of available players. -/
theorem bot_loop_terminates :
    (∀ (teams : List Team) (players : List Player) (fuel : Nat)
        (picks : List PickRecord) (d : MockDraft),
      availableCount players picks < fuel →
      (processAllBotPicks teams players fuel picks d).isSome = true) ∧
    (∀ (teams : List Team) (players : List Player) (picks : List PickRecord)
        (d : MockDraft) (r : MockPickOk) (d' : MockDraft)
        (picks' : List PickRecord),
      make_mock_draft_bot_pick teams players picks d =
        (BotPickOut.picked r, d', picks') →
      d'.current_pick = d.current_pick + 1 ∧
      availableCount players picks' < availableCount players picks) := by
  refine ⟨?_, fun teams players picks d r d' picks' h =>
    bot_pick_picked teams players picks d r d' picks' h⟩
  intro teams players fuel
  induction fuel with
  | zero =>
    intro picks d h
    omega
  | succ n ih =>
    intro picks d h
    unfold processAllBotPicks
    split
    · rfl
    · split
      · rfl
      · split
        · rename_i r d' picks' heq
          split
          · rfl
          · have hdec := bot_pick_picked teams players picks d r d' picks' heq
            exact ih picks' d' (by omega)
        · rfl

/-- Claim C10 witness: with no players at all the loop stops within one
iteration. -/
theorem bot_loop_terminates_witness :
    (processAllBotPicks [] [] 1 []
      { status := DraftStatus.inProgress, total_rounds := 1, current_round := 1,
        current_pick := 0, draft_order := [] }).isSome = true := by
  exact bot_loop_terminates.1 [] [] 1 []
    { status := DraftStatus.inProgress, total_rounds := 1, current_round := 1,
      current_pick := 0, draft_order := [] } (by decide)
